import Mathlib

/-!
Shallow embedding of the café-locator backend
(`app/logic.py`, `app/main.py`, `app/settings.py`).

Python strings are modelled as `List Char`; pandas `NaN`/missing cells as
`Option`; floats as `ℚ` (no claim here depends on rounding); fallible code
as `Except`.  External collaborators (the remote CSV fetch, the ArcGIS
geocoder, the geodesic distance) are passed in as explicit parameters, as
the spec's §6 boundary operations.
-/

/-- Python `str` is modelled as a list of characters. -/
abbrev Str := List Char

/-- The ASCII whitespace characters stripped by Python's `str.strip()` and
matched by the regex class `\s` (space, tab, newline, carriage return,
vertical tab, form feed). -/
def isSpaceChar (c : Char) : Bool :=
  c.toNat = 32 || c.toNat = 9 || c.toNat = 10 || c.toNat = 13 || c.toNat = 11 || c.toNat = 12

/-- Python `str.strip()`: drop leading and trailing whitespace. -/
def pyStrip (l : Str) : Str :=
  (l.dropWhile isSpaceChar).rdropWhile isSpaceChar

/-- ASCII lower-casing, as applied by Python `str.lower()` to the ASCII
range (the code only compares against the ASCII literal `"nan"` and
lower-cases ASCII-folded text, so the ASCII fragment is what matters). -/
def pyToLower (c : Char) : Char :=
  if 65 ≤ c.toNat && c.toNat ≤ 90 then Char.ofNat (c.toNat + 32) else c

/-- `logic.normalizar_texto(valor, fallback)`: `None`/NaN, empty-after-strip
and the literal string `"nan"` (case-insensitively) all collapse to the
fallback; anything else is returned stripped. -/
def normalizar_texto (valor : Option Str) (fallback : Str) : Str :=
  match valor with
  | none => fallback
  | some s =>
    let texto := pyStrip s
    if texto = [] || texto.map pyToLower = "nan".toList then fallback
    else texto

/-- Default fallback of `normalizar_texto`. -/
def SIN_DATO : Str := "Sin dato".toList

/-- Models `unicodedata.normalize("NFKD", ·).encode("ascii","ignore")` on a
single character: ASCII characters are kept unchanged, the Latin-1 accented
letters used by the data fold to their base letter, and any other character
is dropped (its NFKD decomposition has no ASCII part). -/
def foldChar (c : Char) : List Char :=
  if c.toNat < 128 then [c]
  else if c = 'á' || c = 'à' || c = 'â' || c = 'ä' || c = 'ã' then ['a']
  else if c = 'Á' || c = 'À' || c = 'Â' || c = 'Ä' || c = 'Ã' then ['A']
  else if c = 'é' || c = 'è' || c = 'ê' || c = 'ë' then ['e']
  else if c = 'É' || c = 'È' || c = 'Ê' || c = 'Ë' then ['E']
  else if c = 'í' || c = 'ì' || c = 'î' || c = 'ï' then ['i']
  else if c = 'Í' || c = 'Ì' || c = 'Î' || c = 'Ï' then ['I']
  else if c = 'ó' || c = 'ò' || c = 'ô' || c = 'ö' || c = 'õ' then ['o']
  else if c = 'Ó' || c = 'Ò' || c = 'Ô' || c = 'Ö' || c = 'Õ' then ['O']
  else if c = 'ú' || c = 'ù' || c = 'û' || c = 'ü' then ['u']
  else if c = 'Ú' || c = 'Ù' || c = 'Û' || c = 'Ü' then ['U']
  else if c = 'ñ' then ['n']
  else if c = 'Ñ' then ['N']
  else if c = 'ç' then ['c']
  else if c = 'Ç' then ['C']
  else []

/-- NFKD + ASCII-fold of a whole string. -/
def asciiFold (l : Str) : Str := (l.map foldChar).flatten

/-- ASCII letters and digits (the regex class `[a-zA-Z0-9]`, as character
codes: `a`–`z`, `A`–`Z`, `0`–`9`). -/
def isAlnumAscii (c : Char) : Bool :=
  (97 ≤ c.toNat && c.toNat ≤ 122) || (65 ≤ c.toNat && c.toNat ≤ 90) ||
  (48 ≤ c.toNat && c.toNat ≤ 57)

/-- `re.sub(r"[^a-zA-Z0-9\s]", " ", ·)` applied characterwise. -/
def subChar (c : Char) : Char :=
  if isAlnumAscii c || isSpaceChar c then c else ' '

/-- Worker for `splitWs`: `acc` holds the characters of the word currently
being read, in reverse order. -/
def splitWsAux : Str → Str → List Str
  | [], acc => if acc = [] then [] else [acc.reverse]
  | c :: cs, acc =>
    if isSpaceChar c then
      if acc = [] then splitWsAux cs [] else acc.reverse :: splitWsAux cs []
    else splitWsAux cs (c :: acc)

/-- Split on runs of whitespace, dropping empty pieces — Python
`str.split()` (also the word-structure underlying `re.sub(r"\s+", " ", ·)`). -/
def splitWs (l : Str) : List Str := splitWsAux l []

/-- Re-join words with single spaces. -/
def joinSp : List Str → Str
  | [] => []
  | w :: ws => w ++ (ws.map (fun v => ' ' :: v)).flatten

/-- `re.sub(r"\s+", " ", ·).strip()`: every maximal whitespace run becomes
a single space and boundary whitespace disappears — i.e. the words of the
string joined by single spaces. -/
def colapsarEspacios (l : Str) : Str := joinSp (splitWs l)

/-- `logic.texto_normalizado`: display-normalize with empty fallback, NFKD
ASCII fold, lower-case, replace non-alphanumerics by spaces, collapse
whitespace, strip. -/
def texto_normalizado (valor : Str) : Str :=
  let texto := normalizar_texto (some valor) []
  let texto := asciiFold texto
  let texto := (texto.map pyToLower).map subChar
  colapsarEspacios texto

example : texto_normalizado "  Av.  Colón 1500 ".toList = "av colon 1500".toList := by decide
example : texto_normalizado "nan!".toList = "nan".toList := by decide
example : texto_normalizado "nan".toList = [] := by decide
example : normalizar_texto (some "  hola  ".toList) SIN_DATO = "hola".toList := by decide
example : normalizar_texto (some " NaN ".toList) SIN_DATO = SIN_DATO := by decide

/-! ## Data model and coordinate cleaning (`logic.cargar_cafes`) -/

/-- A raw CSV row as produced by `pd.read_csv(..., dtype=str)`: every cell
is a string or missing (NaN). -/
structure RawRow where
  CAFE : Option Str
  UBICACION : Option Str
  TOSTADOR : Option Str
  LAT : Option Str
  LONG : Option Str
deriving DecidableEq

/-- A café row after coordinate cleaning: numeric coordinates, city tag. -/
structure Row where
  CAFE : Option Str
  UBICACION : Option Str
  TOSTADOR : Option Str
  LAT : ℚ
  LONG : ℚ
  CIUDAD : Str
deriving DecidableEq

/-- `.str.replace(",", ".", regex=False)` — the pattern is a single
character, so this is a characterwise replacement. -/
def replaceComma (s : Str) : Str :=
  s.map fun c => if c = ',' then '.' else c

/-- `'0' ≤ c ≤ '9'` as character codes. -/
def isDigitChar (c : Char) : Bool := 48 ≤ c.toNat && c.toNat ≤ 57

/-- Numeric value of a digit string. -/
def digitsVal (l : Str) : ℕ := l.foldl (fun a c => 10 * a + (c.toNat - 48)) 0

/-- Split an optional leading sign off a string. -/
def parseSign : Str → ℤ × Str
  | '-' :: r => (-1, r)
  | '+' :: r => (1, r)
  | s => (1, s)

/-- `pd.to_numeric(·, errors="coerce")` on a decimal string: optional sign,
integer and/or fractional digits, optional exponent; surrounding whitespace
tolerated; anything else (including `"nan"`/`"inf"`, whose parses anyway
never survive the latitude/longitude range filters) coerces to missing. -/
def to_numeric (s0 : Str) : Option ℚ :=
  let s := pyStrip s0
  let (sgn, s1) := parseSign s
  let ip := s1.takeWhile isDigitChar
  let r1 := s1.dropWhile isDigitChar
  let (fp, r2) := match r1 with
    | '.' :: t => (t.takeWhile isDigitChar, t.dropWhile isDigitChar)
    | _ => ([], r1)
  if ip = [] && fp = [] then none
  else
    let mantNum : ℕ := digitsVal ip * 10 ^ fp.length + digitsVal fp
    let mantDen : ℕ := 10 ^ fp.length
    match r2 with
    | [] => some (mkRat (sgn * (mantNum : ℤ)) mantDen)
    | c :: r3 =>
      if c = 'e' || c = 'E' then
        let (esgn, r4) := parseSign r3
        let ed := r4.takeWhile isDigitChar
        let r5 := r4.dropWhile isDigitChar
        if ed = [] || r5 ≠ [] then none
        else if 0 ≤ esgn then
          some (mkRat (sgn * (mantNum : ℤ) * ((10 ^ digitsVal ed : ℕ) : ℤ)) mantDen)
        else
          some (mkRat (sgn * (mantNum : ℤ)) (mantDen * 10 ^ digitsVal ed))
      else none

example : to_numeric "-38,0055".toList = none := by decide
example : to_numeric (replaceComma "-38,0055".toList) = some (mkRat (-380055) 10000) := by decide
example : to_numeric " 1.5e2 ".toList = some 150 := by decide
example : to_numeric "abc".toList = none := by decide
example : to_numeric "".toList = none := by decide

/-- The coordinate-cleaning block of `logic.cargar_cafes` (lines 82–86):
replace decimal comma by a point, coerce to numbers, drop rows where either
coordinate fails to parse, then keep only latitudes in [-90, 90] and
longitudes in [-180, 180].  The city tag is assigned afterwards by the
loader. -/
def limpiarFila (raw : RawRow) : Option Row :=
  match raw.LAT.bind (fun s => to_numeric (replaceComma s)),
        raw.LONG.bind (fun s => to_numeric (replaceComma s)) with
  | some lat, some long =>
    if -90 ≤ lat ∧ lat ≤ 90 ∧ -180 ≤ long ∧ long ≤ 180 then
      some { CAFE := raw.CAFE, UBICACION := raw.UBICACION, TOSTADOR := raw.TOSTADOR,
             LAT := lat, LONG := long, CIUDAD := [] }
    else none
  | _, _ => none

def limpiar_coordenadas (rows : List RawRow) : List Row :=
  rows.filterMap limpiarFila

/-! ## Geocoding (`logic.geocodificar`, `logic.geocodificar_desde_cafes`,
`logic.resolver_coordenadas`) -/

/-- A coordinate pair (latitude, longitude). -/
abbrev Coords := ℚ × ℚ

/-- Outcome of the external ArcGIS call for one query: an exception, a
not-found answer, or a location — the boundary operation of spec §6. -/
abbrev ProviderOutcome := Except Unit (Option Coords)

/-- `logic.geocodificar`: empty or whitespace-only addresses short-circuit
to `none`; any provider exception or not-found outcome becomes `none`; a
found location is returned. -/
def geocodificar (direccion : Str) (provider : ProviderOutcome) : Option Coords :=
  if pyStrip direccion = [] then none
  else
    match provider with
    | .error _ => none
    | .ok none => none
    | .ok (some c) => some c

/-- Python `tok in texto`: containment as a contiguous substring. -/
def esSubcadena (pat s : Str) : Bool := s.tails.any fun t => pat.isPrefixOf t

/-- The text a café row is matched against: normalized location, a space,
normalized café name (the f-string in `geocodificar_desde_cafes.score`). -/
def rowTexto (r : Row) : Str :=
  texto_normalizado (r.UBICACION.getD []) ++ ' ' :: texto_normalizado (r.CAFE.getD [])

/-- `sum(1 for tok in tokens if tok in texto)`: the number of entries of the
token list (with multiplicity) occurring as substrings of `texto`. -/
def puntaje (tokens : List Str) (texto : Str) : ℕ :=
  (tokens.filter fun t => esSubcadena t texto).length

/-- The query-token list of `geocodificar_desde_cafes`: tokens of the
normalized address of length ≥ 3, or all its tokens if none qualify. -/
def tokensConsulta (direccionNorm : Str) : List Str :=
  match (splitWs direccionNorm).filter (fun t => 3 ≤ t.length) with
  | [] => splitWs direccionNorm
  | ts => ts

/-- `logic.geocodificar_desde_cafes`: empty normalized address → `none`;
otherwise score every row and take a row of maximal score (`sort_values`
descending followed by `iloc[0]`; pandas leaves the order of ties
unspecified, modelled here as the first maximal row).  On an empty table
`iloc[0]` raises an `IndexError`, modelled as `.error`.  A best score of 0
yields `none`, otherwise the best row's coordinates. -/
def geocodificar_desde_cafes (direccion : Str) (cafes : List Row) :
    Except Unit (Option Coords) :=
  let direccionNorm := texto_normalizado direccion
  if direccionNorm = [] then .ok none
  else
    let tokens := tokensConsulta direccionNorm
    match cafes.argmax (fun r => puntaje tokens (rowTexto r)) with
    | none => .error ()
    | some mejor =>
      if puntaje tokens (rowTexto mejor) = 0 then .ok none
      else .ok (some (mejor.LAT, mejor.LONG))

/-- Source tag for a successful remote geocoding. -/
def FUENTE_ONLINE : Str := "online".toList

/-- Source tag for a successful local fallback match. -/
def FUENTE_LOCAL : Str := "local".toList

/-- `logic.resolver_coordenadas`: remote tier first, local fallback second;
the local tier's `IndexError` (empty table) propagates. -/
def resolver_coordenadas (direccion : Str) (provider : ProviderOutcome)
    (cafes : List Row) : Except Unit (Option Coords × Option Str) :=
  match geocodificar direccion provider with
  | some c => .ok (some c, some FUENTE_ONLINE)
  | none =>
    match geocodificar_desde_cafes direccion cafes with
    | .error e => .error e
    | .ok (some c) => .ok (some c, some FUENTE_LOCAL)
    | .ok none => .ok (none, none)

/-! ## Spatial filter (`logic.cafes_en_radio`) -/

/-- `logic.cafes_en_radio`: attach to every row its distance from `coords`
(computed by the geodesic collaborator `dist`, spec §6 `great_circle_km`)
as the `DIST_KM` field — modelled as the second component of the pair — and
keep the rows with `DIST_KM ≤ radio_km`. -/
def cafes_en_radio (dist : Coords → Coords → ℚ) (cafes : List Row)
    (coords : Coords) (radio_km : ℚ) : List (Row × ℚ) :=
  (cafes.map fun r => (r, dist coords (r.LAT, r.LONG))).filter
    fun rd => rd.2 ≤ radio_km

/-! ## Settings and cache (`settings.py`, `logic.DataCache`,
`logic.cargar_cafes`, `logic.cargar_todos_los_cafes`) -/

/-- The keys of `settings.GID_CAFES`: the configured cities. -/
def CIUDADES : List Str :=
  ["Mar del Plata".toList, "Buenos Aires".toList, "La Plata".toList,
   "Córdoba".toList, "Rosario".toList]

/-- `settings.CACHE_TTL` (seconds). -/
def CACHE_TTL : ℚ := 600

/-- `logic.CacheItem`: a held table plus its creation timestamp. -/
structure CacheItem where
  ts : ℚ
  df : List Row

/-- `logic.DataCache` (the roaster entry is irrelevant to the claims and
omitted): per-city café tables and the combined all-cities table. -/
structure DataCache where
  cafes_por_ciudad : Str → Option CacheItem
  todos_los_cafes : Option CacheItem

/-- The empty cache at process start. -/
def cacheVacia : DataCache := ⟨fun _ => none, none⟩

/-- `DataCache.is_fresh`: absent entries are stale; present entries are
fresh while `now - ts < CACHE_TTL`. -/
def is_fresh (now : ℚ) : Option CacheItem → Bool
  | none => false
  | some item => decide (now - item.ts < CACHE_TTL)

/-- Result of one remote-tabular fetch for a city, with the local
`Cafes.csv` fallback already folded in (spec §6 boundary operation): either
the parsed raw rows or a failure of both attempts. -/
abbrev Fetch := Str → Except Unit (List RawRow)

/-- The fetch-and-clean path of `logic.cargar_cafes` (cache miss): fetch,
clean coordinates, stamp the city, store in the cache with the current
timestamp. -/
def cargarCafesFetch (fetch : Fetch) (now : ℚ) (cache : DataCache)
    (ciudad : Str) : Except Unit (List Row × DataCache) :=
  match fetch ciudad with
  | .error e => .error e
  | .ok raw =>
    let df := (limpiar_coordenadas raw).map fun r => { r with CIUDAD := ciudad }
    .ok (df, { cache with
               cafes_por_ciudad := fun c =>
                 if c = ciudad then some ⟨now, df⟩ else cache.cafes_por_ciudad c })

/-- `logic.cargar_cafes`: reject unknown cities (`ValueError`), serve a
fresh cache entry without I/O, otherwise fetch, clean and cache. -/
def cargar_cafes (fetch : Fetch) (now : ℚ) (cache : DataCache) (ciudad : Str) :
    Except Unit (List Row × DataCache) :=
  if ciudad ∈ CIUDADES then
    match cache.cafes_por_ciudad ciudad with
    | some item =>
      if now - item.ts < CACHE_TTL then .ok (item.df, cache)
      else cargarCafesFetch fetch now cache ciudad
    | none => cargarCafesFetch fetch now cache ciudad
  else .error ()

/-- One step of the per-city loop in `logic.cargar_todos_los_cafes`: a
failing city is skipped (`except Exception: continue`), a successful one
appends its table. -/
def pasoCargarTodos (fetch : Fetch) (now : ℚ)
    (acc : List (List Row) × DataCache) (ciudad : Str) :
    List (List Row) × DataCache :=
  match cargar_cafes fetch now acc.2 ciudad with
  | .ok (df, cache2) => (acc.1 ++ [df], cache2)
  | .error _ => acc

/-- The refresh path of `logic.cargar_todos_los_cafes` (combined cache
stale or absent): run the per-city loop, concatenate the successful
tables (empty when none succeed) and cache the concatenation. -/
def cargarTodosFetch (fetch : Fetch) (now : ℚ) (cache : DataCache) :
    List Row × DataCache :=
  let paso := CIUDADES.foldl (pasoCargarTodos fetch now) ([], cache)
  (paso.1.flatten, { paso.2 with todos_los_cafes := some ⟨now, paso.1.flatten⟩ })

/-- `logic.cargar_todos_los_cafes`: if the combined entry is fresh, return
it; otherwise load every configured city independently, skipping failures,
concatenate (the empty table when every city fails) and cache the result. -/
def cargar_todos_los_cafes (fetch : Fetch) (now : ℚ) (cache : DataCache) :
    List Row × DataCache :=
  match cache.todos_los_cafes with
  | some item =>
    if now - item.ts < CACHE_TTL then (item.df, cache)
    else cargarTodosFetch fetch now cache
  | none => cargarTodosFetch fetch now cache

/-! ## Endpoint layer (`main.py`) -/

/-- The error outcomes an endpoint can surface: an invalid city (HTTP 400),
a failed geocoding (HTTP 404, spec `GeocodeFailed`), an empty
recommendation radius (HTTP 404, spec `NoCandidates`), or an unhandled
exception escaping the handler (the local tier's `IndexError`). -/
inductive ApiError where
  | invalidCity
  | geocodeFailed
  | noCandidates
  | internalError
deriving DecidableEq

/-- The constraint `Field(ge=0.1, le=10.0)` that `main.BuscarCafesIn`
places on `radio_km`. -/
def radio_km_ok (r : ℚ) : Bool := decide (mkRat 1 10 ≤ r) && decide (r ≤ 10)

/-- The `default=2.0` of `radio_km` in `main.BuscarCafesIn`. -/
def RADIO_KM_DEFAULT : ℚ := 2

/-- The sentinel roaster-filter value meaning "no filter". -/
def TODOS : Str := "Todos".toList

/-- Insertion of a row into a distance-sorted (ascending) list. -/
def insertarPorDist (a : Row × ℚ) : List (Row × ℚ) → List (Row × ℚ)
  | [] => [a]
  | b :: bs => if a.2 ≤ b.2 then a :: b :: bs else b :: insertarPorDist a bs

/-- `sort_values("DIST_KM")` on the radius-filtered table: pandas' default
quicksort leaves the order of equal keys unspecified, so any ascending
rearrangement models it faithfully; an insertion sort is used. -/
def ordenarPorDistancia (l : List (Row × ℚ)) : List (Row × ℚ) :=
  l.foldr insertarPorDist []

/-- `main.buscar_cafes` after the data load (the table is passed in):
validate the city, resolve coordinates, 404 when resolution fails, filter
to the radius, sort ascending by distance, then apply the roaster filter
when one is supplied and it is neither empty (Python falsiness) nor
`"Todos"` — raw exact equality against the `TOSTADOR` cell.  The final
display-field mapping preserves order and membership and is omitted. -/
def buscar_cafes (ciudad direccion : Str) (radio_km : ℚ) (tostador : Option Str)
    (provider : ProviderOutcome) (dist : Coords → Coords → ℚ)
    (cafes : List Row) : Except ApiError (List (Row × ℚ)) :=
  if ciudad ∈ CIUDADES then
    match resolver_coordenadas direccion provider cafes with
    | .error _ => .error .internalError
    | .ok (none, _) => .error .geocodeFailed
    | .ok (some coords, _) =>
      let resultado := ordenarPorDistancia (cafes_en_radio dist cafes coords radio_km)
      let filtrado :=
        match tostador with
        | some t =>
          if t ≠ [] ∧ t ≠ TODOS then resultado.filter fun rd => rd.1.TOSTADOR = some t
          else resultado
        | none => resultado
      .ok filtrado
  else .error .invalidCity

/-- `main.recomendar_cafe` after the data load: validate the city, resolve
coordinates, 404 when resolution fails, filter to the fixed 0.75 km radius,
404 (`NoCandidates`) when no café qualifies, otherwise return one
qualifying café — `DataFrame.sample(n=1)` is modelled by an arbitrary
index `k` reduced modulo the number of candidates. -/
def recomendar_cafe (ciudad direccion : Str) (provider : ProviderOutcome)
    (dist : Coords → Coords → ℚ) (cafes : List Row) (k : ℕ) :
    Except ApiError (Row × ℚ) :=
  if ciudad ∈ CIUDADES then
    match resolver_coordenadas direccion provider cafes with
    | .error _ => .error .internalError
    | .ok (none, _) => .error .geocodeFailed
    | .ok (some coords, _) =>
      match cafes_en_radio dist cafes coords (mkRat 3 4) with
      | [] => .error .noCandidates
      | r :: rs =>
        .ok ((r :: rs).get ⟨k % (r :: rs).length, Nat.mod_lt _ (Nat.succ_pos _)⟩)
  else .error .invalidCity

/-! ## Helper lemmas: characters -/

theorem char_toNat_ofNat_valid {n : ℕ} (h : n < 55296) : (Char.ofNat n).toNat = n := by
  have hv : n.isValidChar := Or.inl h
  rw [Char.ofNat, dif_pos hv]
  simp [Char.ofNatAux, Char.toNat, UInt32.toNat, UInt32.ofNat']

/-- Lower-case ASCII letters and digits: the only non-space characters a
fully normalized string can contain. -/
def esCanonChar (c : Char) : Bool :=
  (97 ≤ c.toNat && c.toNat ≤ 122) || (48 ≤ c.toNat && c.toNat ≤ 57)

theorem esCanonChar_iff {c : Char} :
    esCanonChar c = true ↔ (97 ≤ c.toNat ∧ c.toNat ≤ 122) ∨ (48 ≤ c.toNat ∧ c.toNat ≤ 57) := by
  simp [esCanonChar]

theorem isSpaceChar_iff {c : Char} :
    isSpaceChar c = true ↔
      c.toNat = 32 ∨ c.toNat = 9 ∨ c.toNat = 10 ∨ c.toNat = 13 ∨ c.toNat = 11 ∨ c.toNat = 12 := by
  simp [isSpaceChar]
  tauto

theorem isAlnumAscii_iff {c : Char} :
    isAlnumAscii c = true ↔
      (97 ≤ c.toNat ∧ c.toNat ≤ 122) ∨ (65 ≤ c.toNat ∧ c.toNat ≤ 90) ∨
      (48 ≤ c.toNat ∧ c.toNat ≤ 57) := by
  simp [isAlnumAscii]
  tauto

theorem pyToLower_eq_of_not_upper {c : Char} (h : ¬(65 ≤ c.toNat ∧ c.toNat ≤ 90)) :
    pyToLower c = c := by
  unfold pyToLower
  rw [if_neg (by simpa using h)]

theorem pyToLower_toNat_of_upper {c : Char} (h1 : 65 ≤ c.toNat) (h2 : c.toNat ≤ 90) :
    (pyToLower c).toNat = c.toNat + 32 := by
  unfold pyToLower
  rw [if_pos (by simp [h1, h2])]
  exact char_toNat_ofNat_valid (by omega)

theorem subChar_eq_self {c : Char} (h : (isAlnumAscii c || isSpaceChar c) = true) :
    subChar c = c := by
  unfold subChar
  rw [if_pos h]

theorem subChar_eq_space {c : Char} (h : (isAlnumAscii c || isSpaceChar c) = false) :
    subChar c = ' ' := by
  unfold subChar
  rw [if_neg (by simp [h])]

theorem foldChar_of_ascii {c : Char} (h : c.toNat < 128) : foldChar c = [c] := by
  unfold foldChar
  rw [if_pos (by simpa using h)]

/-- Every character produced by the lower-case-then-substitute step is
either whitespace or a canonical (lower-case alphanumeric) character. -/
theorem subChar_pyToLower_class (c : Char) :
    isSpaceChar (subChar (pyToLower c)) = true ∨ esCanonChar (subChar (pyToLower c)) = true := by
  by_cases hu : 65 ≤ c.toNat ∧ c.toNat ≤ 90
  · right
    have ht : (pyToLower c).toNat = c.toNat + 32 := pyToLower_toNat_of_upper hu.1 hu.2
    have halnum : isAlnumAscii (pyToLower c) = true := by
      rw [isAlnumAscii_iff]; omega
    rw [subChar_eq_self (by simp [halnum])]
    rw [esCanonChar_iff]; omega
  · rw [pyToLower_eq_of_not_upper hu]
    by_cases hk : (isAlnumAscii c || isSpaceChar c) = true
    · rw [subChar_eq_self hk]
      rcases Bool.or_eq_true _ _ |>.mp hk with ha | hs
      · right
        rw [esCanonChar_iff]
        have := isAlnumAscii_iff.mp ha
        omega
      · left; exact hs
    · rw [subChar_eq_space (by simpa using hk)]
      left
      rw [isSpaceChar_iff]
      left; rfl

/-- Canonical characters and the space are untouched by every character
map of the pipeline. -/
theorem canonOrSpace_fixed {c : Char} (h : esCanonChar c = true ∨ c = ' ') :
    pyToLower c = c ∧ subChar c = c ∧ foldChar c = [c] := by
  have hn : (97 ≤ c.toNat ∧ c.toNat ≤ 122) ∨ (48 ≤ c.toNat ∧ c.toNat ≤ 57) ∨ c.toNat = 32 := by
    rcases h with h | h
    · rcases esCanonChar_iff.mp h with h | h
      · exact Or.inl h
      · exact Or.inr (Or.inl h)
    · subst h; right; right; rfl
  refine ⟨pyToLower_eq_of_not_upper (by omega), ?_, foldChar_of_ascii (by omega)⟩
  apply subChar_eq_self
  rcases hn with h' | h' | h'
  · simp [isAlnumAscii_iff.mpr (Or.inl h')]
  · simp [isAlnumAscii_iff.mpr (Or.inr (Or.inr h'))]
  · simp [isSpaceChar_iff.mpr (Or.inl h')]

/-! ## Helper lemmas: whitespace words -/

theorem splitWsAux_nil (acc : Str) :
    splitWsAux [] acc = if acc = [] then [] else [acc.reverse] := rfl

theorem splitWsAux_cons (c : Char) (cs acc : Str) :
    splitWsAux (c :: cs) acc =
      if isSpaceChar c then
        if acc = [] then splitWsAux cs [] else acc.reverse :: splitWsAux cs []
      else splitWsAux cs (c :: acc) := rfl

theorem splitWsAux_good (l : Str) :
    ∀ (acc : Str), (∀ c ∈ acc, isSpaceChar c = false) →
      ∀ w ∈ splitWsAux l acc, w ≠ [] ∧ ∀ c ∈ w, isSpaceChar c = false := by
  induction l with
  | nil =>
    intro acc hacc w hw
    unfold splitWsAux at hw
    by_cases h : acc = []
    · simp [h] at hw
    · rw [if_neg h] at hw
      simp only [List.mem_singleton] at hw
      subst hw
      exact ⟨by simpa using h, fun c hc => hacc c (List.mem_reverse.mp hc)⟩
  | cons c cs ih =>
    intro acc hacc w hw
    unfold splitWsAux at hw
    by_cases hsp : isSpaceChar c
    · rw [if_pos hsp] at hw
      by_cases h : acc = []
      · rw [if_pos h] at hw
        exact ih [] (by simp) w hw
      · rw [if_neg h] at hw
        rcases List.mem_cons.mp hw with rfl | hw'
        · exact ⟨by simpa using h, fun c' hc' => hacc c' (List.mem_reverse.mp hc')⟩
        · exact ih [] (by simp) w hw'
    · rw [if_neg hsp] at hw
      refine ih (c :: acc) ?_ w hw
      intro c' hc'
      rcases List.mem_cons.mp hc' with rfl | h'
      · simpa using hsp
      · exact hacc c' h'

theorem splitWs_good (l : Str) :
    ∀ w ∈ splitWs l, w ≠ [] ∧ ∀ c ∈ w, isSpaceChar c = false :=
  splitWsAux_good l [] (by simp)

theorem splitWsAux_chars (l : Str) :
    ∀ (acc : Str) (w : Str) (c : Char), w ∈ splitWsAux l acc → c ∈ w → c ∈ l ∨ c ∈ acc := by
  induction l with
  | nil =>
    intro acc w c hw hc
    unfold splitWsAux at hw
    by_cases h : acc = []
    · simp [h] at hw
    · rw [if_neg h] at hw
      simp only [List.mem_singleton] at hw
      subst hw
      exact Or.inr (List.mem_reverse.mp hc)
  | cons a cs ih =>
    intro acc w c hw hc
    unfold splitWsAux at hw
    by_cases hsp : isSpaceChar a
    · rw [if_pos hsp] at hw
      by_cases h : acc = []
      · rw [if_pos h] at hw
        rcases ih [] w c hw hc with h' | h'
        · exact Or.inl (by simp [h'])
        · simp at h'
      · rw [if_neg h] at hw
        rcases List.mem_cons.mp hw with rfl | hw'
        · exact Or.inr (List.mem_reverse.mp hc)
        · rcases ih [] w c hw' hc with h' | h'
          · exact Or.inl (by simp [h'])
          · simp at h'
    · rw [if_neg hsp] at hw
      rcases ih (a :: acc) w c hw hc with h' | h'
      · exact Or.inl (by simp [h'])
      · rcases List.mem_cons.mp h' with rfl | h''
        · exact Or.inl (by simp)
        · exact Or.inr h''

theorem splitWs_chars {l w : Str} {c : Char} (hw : w ∈ splitWs l) (hc : c ∈ w) : c ∈ l := by
  rcases splitWsAux_chars l [] w c hw hc with h | h
  · exact h
  · simp at h

theorem splitWsAux_word_append (w : Str) :
    ∀ (l acc : Str), (∀ c ∈ w, isSpaceChar c = false) →
      splitWsAux (w ++ l) acc = splitWsAux l (w.reverse ++ acc) := by
  induction w with
  | nil => simp
  | cons c w' ih =>
    intro l acc hw
    have hc : isSpaceChar c = false := hw c (by simp)
    rw [List.cons_append, splitWsAux_cons, if_neg (by simp [hc]),
        ih l (c :: acc) (fun c' h' => hw c' (by simp [h']))]
    simp

theorem joinSp_cons_of_ne (w : Str) (ws : List Str) (h : ws ≠ []) :
    joinSp (w :: ws) = w ++ ' ' :: joinSp ws := by
  match ws, h with
  | v :: vs, _ => simp [joinSp]

theorem joinSp_append_single (us : List Str) (u : Str) (h : us ≠ []) :
    joinSp (us ++ [u]) = joinSp us ++ ' ' :: u := by
  induction us with
  | nil => cases h rfl
  | cons a us' ih =>
    by_cases h' : us' = []
    · subst h'
      simp [joinSp]
    · rw [List.cons_append, joinSp_cons_of_ne a (us' ++ [u]) (by simp [h']),
          ih h', joinSp_cons_of_ne a us' h']
      simp

theorem joinSp_reverse (ws : List Str) :
    (joinSp ws).reverse = joinSp ((ws.map List.reverse).reverse) := by
  induction ws with
  | nil => simp [joinSp]
  | cons w ws' ih =>
    by_cases h : ws' = []
    · subst h
      simp [joinSp]
    · rw [joinSp_cons_of_ne w ws' h, List.reverse_append, List.reverse_cons, ih,
          List.map_cons, List.reverse_cons,
          joinSp_append_single _ _ (by simp [h])]
      simp

theorem dropWhile_joinSp (ws : List Str)
    (h : ∀ w ∈ ws, w ≠ [] ∧ ∀ c ∈ w, isSpaceChar c = false) :
    (joinSp ws).dropWhile isSpaceChar = joinSp ws := by
  cases ws with
  | nil => simp [joinSp]
  | cons w ws' =>
    obtain ⟨hne, hchars⟩ := h w (by simp)
    match w, hne with
    | c :: w'', _ =>
      have hc : isSpaceChar c = false := hchars c (by simp)
      simp only [joinSp, List.cons_append]
      rw [List.dropWhile_cons_of_neg (by simp [hc])]

theorem good_reverse {ws : List Str}
    (h : ∀ w ∈ ws, w ≠ [] ∧ ∀ c ∈ w, isSpaceChar c = false) :
    ∀ w ∈ (ws.map List.reverse).reverse, w ≠ [] ∧ ∀ c ∈ w, isSpaceChar c = false := by
  intro w hw
  rw [List.mem_reverse, List.mem_map] at hw
  obtain ⟨v, hv, rfl⟩ := hw
  obtain ⟨hne, hch⟩ := h v hv
  exact ⟨by simpa using hne, fun c hc => hch c (List.mem_reverse.mp hc)⟩

theorem pyStrip_joinSp (ws : List Str)
    (h : ∀ w ∈ ws, w ≠ [] ∧ ∀ c ∈ w, isSpaceChar c = false) :
    pyStrip (joinSp ws) = joinSp ws := by
  unfold pyStrip List.rdropWhile
  rw [dropWhile_joinSp ws h, joinSp_reverse, dropWhile_joinSp _ (good_reverse h),
      ← joinSp_reverse, List.reverse_reverse]

theorem splitWs_joinSp (ws : List Str)
    (h : ∀ w ∈ ws, w ≠ [] ∧ ∀ c ∈ w, isSpaceChar c = false) :
    splitWs (joinSp ws) = ws := by
  induction ws with
  | nil => rfl
  | cons w ws' ih =>
    obtain ⟨hne, hch⟩ := h w (by simp)
    unfold splitWs
    cases ws' with
    | nil =>
      have h1 : joinSp [w] = w ++ [] := by simp [joinSp]
      rw [h1, splitWsAux_word_append w [] [] hch, splitWsAux_nil,
          if_neg (by simpa using hne)]
      simp
    | cons v vs =>
      rw [joinSp_cons_of_ne w (v :: vs) (by simp),
          splitWsAux_word_append w (' ' :: joinSp (v :: vs)) [] hch,
          splitWsAux_cons, if_pos (by rfl),
          if_neg (by simpa using hne)]
      have ih' := ih (fun w' hw' => h w' (by simp [hw']))
      unfold splitWs at ih'
      rw [ih']
      simp

theorem mem_joinSp {c : Char} {ws : List Str} (h : c ∈ joinSp ws) :
    c = ' ' ∨ ∃ w ∈ ws, c ∈ w := by
  cases ws with
  | nil => simp [joinSp] at h
  | cons w ws' =>
    simp only [joinSp, List.mem_append, List.mem_flatten, List.mem_map] at h
    rcases h with h | ⟨l, ⟨v, hv, rfl⟩, hc⟩
    · right; exact ⟨w, by simp, h⟩
    · rcases List.mem_cons.mp hc with rfl | h'
      · left; rfl
      · right; exact ⟨v, by simp [hv], h'⟩

theorem pyStrip_idem (l : Str) : pyStrip (pyStrip l) = pyStrip l := by
  unfold pyStrip
  set x := l.dropWhile isSpaceChar with hx
  have hxx : x.dropWhile isSpaceChar = x := by
    rw [hx, List.dropWhile_idempotent]
  have h1 : (x.rdropWhile isSpaceChar).dropWhile isSpaceChar = x.rdropWhile isSpaceChar := by
    have hpre := List.rdropWhile_prefix isSpaceChar (l := x)
    obtain ⟨t, ht⟩ := hpre
    cases hy : x.rdropWhile isSpaceChar with
    | nil => simp
    | cons c y =>
      rw [hy] at ht
      have hcx : x = c :: (y ++ t) := by rw [← ht]; simp
      have hcneg : ¬ (isSpaceChar c = true) := by
        intro hsp
        rw [hcx, List.dropWhile_cons_of_pos hsp] at hxx
        have hlen := List.Sublist.length_le (List.dropWhile_sublist (l := y ++ t) (p := isSpaceChar))
        rw [hxx] at hlen
        simp only [List.length_cons] at hlen
        omega
      rw [List.dropWhile_cons_of_neg hcneg]
  rw [h1, List.rdropWhile_idempotent]

/-! ## Helper lemmas: the normalizers -/

theorem map_id_of_fix {l : Str} {f : Char → Char} (h : ∀ c ∈ l, f c = c) : l.map f = l := by
  induction l with
  | nil => rfl
  | cons c cs ih =>
    rw [List.map_cons, h c (by simp), ih (fun c' hc' => h c' (by simp [hc']))]

theorem flatten_map_singleton {l : Str} {f : Char → List Char} (h : ∀ c ∈ l, f c = [c]) :
    (l.map f).flatten = l := by
  induction l with
  | nil => rfl
  | cons c cs ih =>
    rw [List.map_cons, List.flatten_cons, h c (by simp),
        ih (fun c' hc' => h c' (by simp [hc']))]
    rfl

theorem normalizar_texto_cases (s fb : Str) :
    normalizar_texto (some s) fb = fb ∨
      (normalizar_texto (some s) fb = pyStrip s ∧ ¬(pyStrip s = []) ∧
        ¬((pyStrip s).map pyToLower = "nan".toList)) := by
  unfold normalizar_texto
  by_cases h1 : pyStrip s = []
  · left; simp [h1]
  · by_cases h2 : (pyStrip s).map pyToLower = "nan".toList
    · left; simp [h1, h2]
    · right
      have h2' : ¬((pyStrip s).map pyToLower = ['n', 'a', 'n']) := by simpa using h2
      refine ⟨?_, h1, h2⟩
      simp [h1, h2']

theorem normalizar_texto_fix {t fb : Str} (h1 : pyStrip t = t) (h2 : ¬(t = []))
    (h3 : ¬(t.map pyToLower = "nan".toList)) : normalizar_texto (some t) fb = t := by
  have h3' : ¬(t.map pyToLower = ['n', 'a', 'n']) := by simpa using h3
  simp only [normalizar_texto, h1]
  simp [h2, h3']

/-- Re-normalizing a display string normalized with the default fallback is
a no-op. -/
theorem normalizar_texto_idem (s : Str) :
    normalizar_texto (some (normalizar_texto (some s) SIN_DATO)) SIN_DATO
      = normalizar_texto (some s) SIN_DATO := by
  rcases normalizar_texto_cases s SIN_DATO with h | ⟨h, h1, h2⟩
  · rw [h]; decide
  · rw [h]
    exact normalizar_texto_fix (pyStrip_idem s) h1 h2

theorem texto_normalizado_canon (s : Str) :
    ∀ c ∈ texto_normalizado s, esCanonChar c = true ∨ c = ' ' := by
  intro c hc
  unfold texto_normalizado colapsarEspacios at hc
  rcases mem_joinSp hc with h | ⟨w, hw, hcw⟩
  · right; exact h
  · left
    have hx : c ∈ (((asciiFold (normalizar_texto (some s) [])).map pyToLower).map subChar) :=
      splitWs_chars hw hcw
    rw [List.map_map] at hx
    obtain ⟨c₀, _, hc₀⟩ := List.mem_map.mp hx
    have hns := (splitWs_good _ w hw).2 c hcw
    rw [Function.comp_apply] at hc₀
    rcases subChar_pyToLower_class c₀ with hsp | hcanon
    · rw [hc₀] at hsp
      rw [hns] at hsp
      cases hsp
    · rw [← hc₀]
      exact hcanon

theorem texto_normalizado_nil : texto_normalizado [] = [] := by decide

/-- Re-tokenizing a tokenized string is a no-op — except when the result is
the literal `"nan"`, which `normalizar_texto` then swallows. -/
theorem texto_normalizado_idem (s : Str) (h : ¬(texto_normalizado s = "nan".toList)) :
    texto_normalizado (texto_normalizado s) = texto_normalizado s := by
  by_cases h0 : texto_normalizado s = []
  · rw [h0, texto_normalizado_nil]
  · have hcanon := texto_normalizado_canon s
    have hfix : ∀ c ∈ texto_normalizado s, pyToLower c = c ∧ subChar c = c ∧ foldChar c = [c] :=
      fun c hc => canonOrSpace_fixed (hcanon c hc)
    have hlower : (texto_normalizado s).map pyToLower = texto_normalizado s :=
      map_id_of_fix (fun c hc => (hfix c hc).1)
    have hsub : (texto_normalizado s).map subChar = texto_normalizado s :=
      map_id_of_fix (fun c hc => (hfix c hc).2.1)
    have hfold : asciiFold (texto_normalizado s) = texto_normalizado s :=
      flatten_map_singleton (fun c hc => (hfix c hc).2.2)
    have hjoin : texto_normalizado s =
        joinSp (splitWs (((asciiFold (normalizar_texto (some s) [])).map pyToLower).map subChar)) :=
      rfl
    have hstrip : pyStrip (texto_normalizado s) = texto_normalizado s := by
      rw [hjoin]
      exact pyStrip_joinSp _ (splitWs_good _)
    have hnan : ¬((texto_normalizado s).map pyToLower = "nan".toList) := by
      rw [hlower]; exact h
    have hnorm : normalizar_texto (some (texto_normalizado s)) [] = texto_normalizado s :=
      normalizar_texto_fix hstrip h0 hnan
    show colapsarEspacios
        (((asciiFold (normalizar_texto (some (texto_normalizado s)) [])).map pyToLower).map subChar)
      = texto_normalizado s
    rw [hnorm, hfold, hlower, hsub]
    unfold colapsarEspacios
    conv_lhs => rw [hjoin]
    rw [splitWs_joinSp _ (splitWs_good _), ← hjoin]

/-! ## Helper lemmas: sorting, cleaning, geocoding -/

theorem mem_insertarPorDist {x a : Row × ℚ} :
    ∀ {l : List (Row × ℚ)}, x ∈ insertarPorDist a l ↔ x = a ∨ x ∈ l := by
  intro l
  induction l with
  | nil => simp [insertarPorDist]
  | cons b bs ih =>
    unfold insertarPorDist
    by_cases h : a.2 ≤ b.2
    · rw [if_pos h]
      simp
    · rw [if_neg h]
      simp [ih]
      tauto

theorem mem_ordenarPorDistancia {x : Row × ℚ} {l : List (Row × ℚ)} :
    x ∈ ordenarPorDistancia l ↔ x ∈ l := by
  unfold ordenarPorDistancia
  induction l with
  | nil => simp
  | cons a as ih =>
    rw [List.foldr_cons, mem_insertarPorDist]
    simp [ih]

theorem pairwise_insertarPorDist {a : Row × ℚ} {l : List (Row × ℚ)}
    (h : l.Pairwise (fun x y : Row × ℚ => x.2 ≤ y.2)) :
    (insertarPorDist a l).Pairwise (fun x y : Row × ℚ => x.2 ≤ y.2) := by
  induction l with
  | nil => simp [insertarPorDist]
  | cons b bs ih =>
    unfold insertarPorDist
    cases h with
    | cons hb hbs =>
      by_cases hab : a.2 ≤ b.2
      · rw [if_pos hab]
        refine List.Pairwise.cons ?_ (List.Pairwise.cons hb hbs)
        intro y hy
        rcases List.mem_cons.mp hy with rfl | hy'
        · exact hab
        · exact le_trans hab (hb y hy')
      · rw [if_neg hab]
        have hba : b.2 ≤ a.2 := le_of_not_le hab
        refine List.Pairwise.cons ?_ (ih hbs)
        intro y hy
        rcases mem_insertarPorDist.mp hy with rfl | hy'
        · exact hba
        · exact hb y hy'

theorem sorted_ordenarPorDistancia (l : List (Row × ℚ)) :
    (ordenarPorDistancia l).Pairwise (fun x y : Row × ℚ => x.2 ≤ y.2) := by
  unfold ordenarPorDistancia
  induction l with
  | nil => simp
  | cons a as ih => exact pairwise_insertarPorDist ih

/-- Membership in the spatial filter: exactly the rows of the table whose
attached distance is within the radius. -/
theorem mem_cafes_en_radio {dist : Coords → Coords → ℚ} {cafes : List Row}
    {coords : Coords} {radio_km : ℚ} {r : Row} {d : ℚ} :
    (r, d) ∈ cafes_en_radio dist cafes coords radio_km ↔
      r ∈ cafes ∧ d = dist coords (r.LAT, r.LONG) ∧ d ≤ radio_km := by
  unfold cafes_en_radio
  simp only [List.mem_filter, List.mem_map, Prod.mk.injEq, decide_eq_true_eq]
  constructor
  · rintro ⟨⟨a, ha, rfl, rfl⟩, hle⟩
    exact ⟨ha, rfl, hle⟩
  · rintro ⟨hr, rfl, hle⟩
    exact ⟨⟨r, hr, rfl, rfl⟩, hle⟩

/-- Characterization of the per-row cleaning step. -/
theorem limpiarFila_eq_some {raw : RawRow} {r : Row} :
    limpiarFila raw = some r ↔
      ∃ sLat sLong lat long,
        raw.LAT = some sLat ∧ raw.LONG = some sLong ∧
        to_numeric (replaceComma sLat) = some lat ∧
        to_numeric (replaceComma sLong) = some long ∧
        -90 ≤ lat ∧ lat ≤ 90 ∧ -180 ≤ long ∧ long ≤ 180 ∧
        r = { CAFE := raw.CAFE, UBICACION := raw.UBICACION, TOSTADOR := raw.TOSTADOR,
              LAT := lat, LONG := long, CIUDAD := [] } := by
  unfold limpiarFila
  cases hL : raw.LAT.bind (fun s => to_numeric (replaceComma s)) with
  | none =>
    rw [Option.bind_eq_none] at hL
    constructor
    · intro h
      cases h
    · rintro ⟨sLat, sLong, lat, long, h1, h2, h3, -⟩
      rw [hL sLat h1] at h3
      cases h3
  | some lat =>
    rw [Option.bind_eq_some] at hL
    obtain ⟨sLat, hsLat, hlat⟩ := hL
    cases hG : raw.LONG.bind (fun s => to_numeric (replaceComma s)) with
    | none =>
      rw [Option.bind_eq_none] at hG
      constructor
      · intro h
        cases h
      · rintro ⟨sLat', sLong, lat', long, h1, h2, h3, h4, -⟩
        rw [hG sLong h2] at h4
        cases h4
    | some long =>
      rw [Option.bind_eq_some] at hG
      obtain ⟨sLong, hsLong, hlong⟩ := hG
      show (if -90 ≤ lat ∧ lat ≤ 90 ∧ -180 ≤ long ∧ long ≤ 180 then
              some { CAFE := raw.CAFE, UBICACION := raw.UBICACION, TOSTADOR := raw.TOSTADOR,
                     LAT := lat, LONG := long, CIUDAD := ([] : Str) }
            else none) = some r ↔ _
      by_cases hrange : -90 ≤ lat ∧ lat ≤ 90 ∧ -180 ≤ long ∧ long ≤ 180
      · rw [if_pos hrange]
        constructor
        · intro h
          obtain rfl := (Option.some_inj.mp h).symm
          exact ⟨sLat, sLong, lat, long, hsLat, hsLong, hlat, hlong,
                 hrange.1, hrange.2.1, hrange.2.2.1, hrange.2.2.2, rfl⟩
        · rintro ⟨sLat', sLong', lat', long', h1, h2, h3, h4, -, -, -, -, rfl⟩
          rw [hsLat] at h1
          rw [hsLong] at h2
          obtain rfl := Option.some_inj.mp h1
          obtain rfl := Option.some_inj.mp h2
          rw [hlat] at h3
          rw [hlong] at h4
          obtain rfl := Option.some_inj.mp h3
          obtain rfl := Option.some_inj.mp h4
          rfl
      · rw [if_neg hrange]
        constructor
        · intro h
          cases h
        · rintro ⟨sLat', sLong', lat', long', h1, h2, h3, h4, hr1, hr2, hr3, hr4, rfl⟩
          rw [hsLat] at h1
          rw [hsLong] at h2
          obtain rfl := Option.some_inj.mp h1
          obtain rfl := Option.some_inj.mp h2
          rw [hlat] at h3
          rw [hlong] at h4
          obtain rfl := Option.some_inj.mp h3
          obtain rfl := Option.some_inj.mp h4
          exact absurd ⟨hr1, hr2, hr3, hr4⟩ hrange

theorem texto_normalizado_of_strip_empty {d : Str} (h : pyStrip d = []) :
    texto_normalizado d = [] := by
  have h1 : normalizar_texto (some d) [] = [] := by
    simp only [normalizar_texto, h]
    simp
  show colapsarEspacios
      (((asciiFold (normalizar_texto (some d) [])).map pyToLower).map subChar) = []
  rw [h1]
  rfl

theorem geocodificar_of_strip_empty {d : Str} (p : ProviderOutcome) (h : pyStrip d = []) :
    geocodificar d p = none := by
  unfold geocodificar
  rw [if_pos h]

/-- Full characterization of the local fallback on a non-empty table: it
succeeds, returns `none` exactly when every row scores 0, and otherwise
returns the coordinates of a maximal-scoring row. -/
theorem gdc_spec (direccion : Str) (cafes : List Row) (hne : cafes ≠ []) :
    ∃ res, geocodificar_desde_cafes direccion cafes = .ok res ∧
      (texto_normalizado direccion = [] → res = none) ∧
      (texto_normalizado direccion ≠ [] →
        ((res = none) ↔ ∀ r ∈ cafes,
            puntaje (tokensConsulta (texto_normalizado direccion)) (rowTexto r) = 0) ∧
        (∀ c, res = some c → ∃ r ∈ cafes,
            c = (r.LAT, r.LONG) ∧ ∀ r' ∈ cafes,
              puntaje (tokensConsulta (texto_normalizado direccion)) (rowTexto r') ≤
                puntaje (tokensConsulta (texto_normalizado direccion)) (rowTexto r))) := by
  unfold geocodificar_desde_cafes
  by_cases hdn : texto_normalizado direccion = []
  · rw [if_pos hdn]
    exact ⟨none, rfl, fun _ => rfl, fun hc => absurd hdn hc⟩
  · rw [if_neg hdn]
    dsimp only
    cases hmax : cafes.argmax
        (fun r => puntaje (tokensConsulta (texto_normalizado direccion)) (rowTexto r)) with
    | none => exact absurd (List.argmax_eq_none.mp hmax) hne
    | some mejor =>
      have hmem : mejor ∈ cafes :=
        List.argmax_mem
          (f := fun r => puntaje (tokensConsulta (texto_normalizado direccion)) (rowTexto r))
          (Option.mem_def.mpr hmax)
      have hle : ∀ r ∈ cafes,
          puntaje (tokensConsulta (texto_normalizado direccion)) (rowTexto r) ≤
            puntaje (tokensConsulta (texto_normalizado direccion)) (rowTexto mejor) :=
        fun r hr =>
          List.le_of_mem_argmax
            (f := fun r => puntaje (tokensConsulta (texto_normalizado direccion)) (rowTexto r))
            hr (Option.mem_def.mpr hmax)
      dsimp only
      by_cases h0 : puntaje (tokensConsulta (texto_normalizado direccion)) (rowTexto mejor) = 0
      · rw [if_pos h0]
        refine ⟨none, rfl, fun _ => rfl, fun _ => ⟨?_, ?_⟩⟩
        · constructor
          · intro _ r hr
            have hr' := hle r hr
            rw [h0] at hr'
            omega
          · intro _; rfl
        · intro c hc
          cases hc
      · rw [if_neg h0]
        refine ⟨some (mejor.LAT, mejor.LONG), rfl, fun h => absurd h hdn, fun _ => ⟨?_, ?_⟩⟩
        · constructor
          · intro h
            cases h
          · intro hall
            exact absurd (hall mejor hmem) h0
        · intro c hc
          obtain rfl : (mejor.LAT, mejor.LONG) = c := Option.some_inj.mp hc
          exact ⟨mejor, hmem, rfl, hle⟩

/-! ## Helper lemmas: the loaders -/

/-- The table of a successful load, forgetting the cache. -/
def exceptDf : Except Unit (List Row × DataCache) → Option (List Row)
  | .ok (df, _) => some df
  | .error _ => none

theorem cargar_cafes_not_in {fetch : Fetch} {now : ℚ} {cache : DataCache} {ciudad : Str}
    (h : ciudad ∉ CIUDADES) : cargar_cafes fetch now cache ciudad = .error () := by
  unfold cargar_cafes
  rw [if_neg h]

theorem cargar_cafes_cached {fetch : Fetch} {now : ℚ} {cache : DataCache} {ciudad : Str}
    {item : CacheItem} (hc : ciudad ∈ CIUDADES)
    (hitem : cache.cafes_por_ciudad ciudad = some item)
    (hfresh : now - item.ts < CACHE_TTL) :
    cargar_cafes fetch now cache ciudad = .ok (item.df, cache) := by
  unfold cargar_cafes
  rw [if_pos hc, hitem]
  simp [hfresh]

theorem cargar_cafes_stale {fetch : Fetch} {now : ℚ} {cache : DataCache} {ciudad : Str}
    {item : CacheItem} (hc : ciudad ∈ CIUDADES)
    (hitem : cache.cafes_por_ciudad ciudad = some item)
    (hfresh : ¬(now - item.ts < CACHE_TTL)) :
    cargar_cafes fetch now cache ciudad = cargarCafesFetch fetch now cache ciudad := by
  unfold cargar_cafes
  rw [if_pos hc, hitem]
  simp [hfresh]

theorem cargar_cafes_no_entry {fetch : Fetch} {now : ℚ} {cache : DataCache} {ciudad : Str}
    (hc : ciudad ∈ CIUDADES) (hnone : cache.cafes_por_ciudad ciudad = none) :
    cargar_cafes fetch now cache ciudad = cargarCafesFetch fetch now cache ciudad := by
  unfold cargar_cafes
  rw [if_pos hc, hnone]

theorem cargarCafesFetch_error {fetch : Fetch} {now : ℚ} {cache : DataCache} {ciudad : Str}
    {e : Unit} (hf : fetch ciudad = .error e) :
    cargarCafesFetch fetch now cache ciudad = .error e := by
  unfold cargarCafesFetch
  rw [hf]

theorem cargarCafesFetch_ok {fetch : Fetch} {now : ℚ} {cache : DataCache} {ciudad : Str}
    {raw : List RawRow} (hf : fetch ciudad = .ok raw) :
    cargarCafesFetch fetch now cache ciudad =
      .ok ((limpiar_coordenadas raw).map (fun r => { r with CIUDAD := ciudad }),
           { cache with
             cafes_por_ciudad := fun c =>
               if c = ciudad then
                 some ⟨now, (limpiar_coordenadas raw).map (fun r => { r with CIUDAD := ciudad })⟩
               else cache.cafes_por_ciudad c }) := by
  unfold cargarCafesFetch
  rw [hf]

theorem cargar_cafes_preserva {fetch : Fetch} {now : ℚ} {cache : DataCache} {ciudad : Str}
    {df : List Row} {cache2 : DataCache}
    (h : cargar_cafes fetch now cache ciudad = .ok (df, cache2)) :
    cache2.todos_los_cafes = cache.todos_los_cafes ∧
      ∀ c, c ≠ ciudad → cache2.cafes_por_ciudad c = cache.cafes_por_ciudad c := by
  by_cases hc : ciudad ∈ CIUDADES
  · have hfetchcase : cargarCafesFetch fetch now cache ciudad = .ok (df, cache2) →
        cache2.todos_los_cafes = cache.todos_los_cafes ∧
          ∀ c, c ≠ ciudad → cache2.cafes_por_ciudad c = cache.cafes_por_ciudad c := by
      intro hh
      cases hf : fetch ciudad with
      | error e =>
        rw [cargarCafesFetch_error hf] at hh
        cases hh
      | ok raw =>
        rw [cargarCafesFetch_ok hf] at hh
        have h2 := Except.ok.inj hh
        rw [Prod.mk.injEq] at h2
        obtain ⟨-, hcache⟩ := h2
        subst hcache
        refine ⟨rfl, fun c hcc => ?_⟩
        simp [hcc]
    cases hitem : cache.cafes_por_ciudad ciudad with
    | some item =>
      by_cases hfresh : now - item.ts < CACHE_TTL
      · rw [cargar_cafes_cached hc hitem hfresh] at h
        have h2 := Except.ok.inj h
        rw [Prod.mk.injEq] at h2
        obtain ⟨-, hcache⟩ := h2
        subst hcache
        exact ⟨rfl, fun _ _ => rfl⟩
      · rw [cargar_cafes_stale hc hitem hfresh] at h
        exact hfetchcase h
    | none =>
      rw [cargar_cafes_no_entry hc hitem] at h
      exact hfetchcase h
  · rw [cargar_cafes_not_in hc] at h
    cases h

theorem cargar_cafes_agree (fetch : Fetch) (now : ℚ) {cache cache' : DataCache} (ciudad : Str)
    (h : cache'.cafes_por_ciudad ciudad = cache.cafes_por_ciudad ciudad) :
    exceptDf (cargar_cafes fetch now cache' ciudad) =
      exceptDf (cargar_cafes fetch now cache ciudad) := by
  by_cases hc : ciudad ∈ CIUDADES
  · have hfetch : exceptDf (cargarCafesFetch fetch now cache' ciudad) =
        exceptDf (cargarCafesFetch fetch now cache ciudad) := by
      cases hf : fetch ciudad with
      | error e => rw [cargarCafesFetch_error hf, cargarCafesFetch_error hf]
      | ok raw =>
        rw [cargarCafesFetch_ok hf, cargarCafesFetch_ok hf]
        rfl
    cases hitem : cache.cafes_por_ciudad ciudad with
    | some item =>
      have hitem' : cache'.cafes_por_ciudad ciudad = some item := by rw [h, hitem]
      by_cases hfresh : now - item.ts < CACHE_TTL
      · rw [cargar_cafes_cached hc hitem hfresh, cargar_cafes_cached hc hitem' hfresh]
        rfl
      · rw [cargar_cafes_stale hc hitem hfresh, cargar_cafes_stale hc hitem' hfresh]
        exact hfetch
    | none =>
      have hitem' : cache'.cafes_por_ciudad ciudad = none := by rw [h, hitem]
      rw [cargar_cafes_no_entry hc hitem, cargar_cafes_no_entry hc hitem']
      exact hfetch
  · rw [cargar_cafes_not_in hc, cargar_cafes_not_in hc]
theorem pasoCargarTodos_error {fetch : Fetch} {now : ℚ} {acc : List (List Row)}
    {cache : DataCache} {ciudad : Str} {e : Unit}
    (h : cargar_cafes fetch now cache ciudad = .error e) :
    pasoCargarTodos fetch now (acc, cache) ciudad = (acc, cache) := by
  unfold pasoCargarTodos
  rw [h]

theorem pasoCargarTodos_ok {fetch : Fetch} {now : ℚ} {acc : List (List Row)}
    {cache : DataCache} {ciudad : Str} {df : List Row} {cache2 : DataCache}
    (h : cargar_cafes fetch now cache ciudad = .ok (df, cache2)) :
    pasoCargarTodos fetch now (acc, cache) ciudad = (acc ++ [df], cache2) := by
  unfold pasoCargarTodos
  rw [h]

/-- The per-city loop of `cargar_todos_los_cafes`: since the configured
cities are distinct and a load touches only its own city's cache slot, each
city is loaded exactly as it would be from the initial cache, failing
cities contribute nothing, and the combined-cache slot is untouched. -/
theorem fold_cargar_todos (fetch : Fetch) (now : ℚ) (cache₀ : DataCache) :
    ∀ (cities : List Str) (cache : DataCache) (acc : List (List Row)),
      cities.Nodup →
      (∀ c ∈ cities, cache.cafes_por_ciudad c = cache₀.cafes_por_ciudad c) →
      (cities.foldl (pasoCargarTodos fetch now) (acc, cache)).1
          = acc ++ cities.filterMap (fun c => exceptDf (cargar_cafes fetch now cache₀ c)) ∧
      (cities.foldl (pasoCargarTodos fetch now) (acc, cache)).2.todos_los_cafes
          = cache.todos_los_cafes := by
  intro cities
  induction cities with
  | nil =>
    intro cache acc _ _
    simp
  | cons c cs ih =>
    intro cache acc hnd hagree
    rw [List.foldl_cons]
    have hagreec := hagree c (by simp)
    have hstep := @cargar_cafes_agree fetch now cache₀ cache c hagreec
    cases hcc : cargar_cafes fetch now cache c with
    | error e =>
      have hskip : exceptDf (cargar_cafes fetch now cache₀ c) = none := by
        rw [← hstep, hcc]
        rfl
      rw [pasoCargarTodos_error hcc]
      obtain ⟨ih1, ih2⟩ :=
        ih cache acc (List.nodup_cons.mp hnd).2 (fun c' hc' => hagree c' (by simp [hc']))
      refine ⟨?_, ih2⟩
      rw [ih1]
      simp [List.filterMap_cons, hskip]
    | ok pair =>
      obtain ⟨df, cache2⟩ := pair
      have hsome : exceptDf (cargar_cafes fetch now cache₀ c) = some df := by
        rw [← hstep, hcc]
        rfl
      rw [pasoCargarTodos_ok hcc]
      obtain ⟨hpres1, hpres2⟩ := cargar_cafes_preserva hcc
      have hagree' : ∀ c' ∈ cs, cache2.cafes_por_ciudad c' = cache₀.cafes_por_ciudad c' := by
        intro c' hc'
        have hne : c' ≠ c := fun heq => (List.nodup_cons.mp hnd).1 (heq ▸ hc')
        rw [hpres2 c' hne, hagree c' (by simp [hc'])]
      obtain ⟨ih1, ih2⟩ := ih cache2 (acc ++ [df]) (List.nodup_cons.mp hnd).2 hagree'
      constructor
      · rw [ih1]
        simp [List.filterMap_cons, hsome]
      · rw [ih2, hpres1]

deriving instance DecidableEq for Except

/-! ## Concrete data used by witnesses and counterexamples -/

/-- A raw CSV row with decimal-comma coordinates of a Mar del Plata café. -/
def rawEjemplo : RawRow :=
  { CAFE := some "Cafe Central".toList, UBICACION := some "Av Colon 1500".toList,
    TOSTADOR := none, LAT := some "-38,0055".toList, LONG := some "-57,5426".toList }

/-- The cleaned form of `rawEjemplo` (city not yet stamped). -/
def filaEjemplo : Row :=
  { CAFE := some "Cafe Central".toList, UBICACION := some "Av Colon 1500".toList,
    TOSTADOR := none, LAT := mkRat (-380055) 10000, LONG := mkRat (-575426) 10000,
    CIUDAD := [] }

/-! ## Claims -/

/-- C1 (amended): the search input model `BuscarCafesIn` accepts exactly
the radii in the closed interval [0.1, 10] km — `Field(ge=0.1, le=10.0)` —
with 2.0 km as the default when no radius is supplied. -/
theorem C1_validacion_radio :
    (∀ r : ℚ, radio_km_ok r = true ↔ (mkRat 1 10 ≤ r ∧ r ≤ 10)) ∧ RADIO_KM_DEFAULT = 2 := by
  refine ⟨fun r => ?_, rfl⟩
  simp [radio_km_ok]

/-- C1 counterexample: the radius 0.05 km lies in the claimed interval
(0, 10] but is rejected by the validator. -/
theorem C1_contraejemplo :
    (0 < mkRat 1 20 ∧ mkRat 1 20 ≤ 10) ∧ radio_km_ok (mkRat 1 20) = false := by decide

/-- C2 (amended): `normalizar_texto` with its default fallback is
idempotent, and `texto_normalizado` is idempotent on every string whose
tokenized form is not the literal `"nan"` (on those, re-tokenizing yields
the empty string instead, because `normalizar_texto` swallows `"nan"`). -/
theorem C2_normalizadores_idempotentes :
    (∀ s : Str, normalizar_texto (some (normalizar_texto (some s) SIN_DATO)) SIN_DATO
        = normalizar_texto (some s) SIN_DATO) ∧
    (∀ s : Str, texto_normalizado s ≠ "nan".toList →
        texto_normalizado (texto_normalizado s) = texto_normalizado s) :=
  ⟨normalizar_texto_idem, texto_normalizado_idem⟩

/-- C2 witness: both idempotence statements at concrete strings. -/
theorem C2_testigo :
    normalizar_texto (some (normalizar_texto (some " Café de  Colón ".toList) SIN_DATO)) SIN_DATO
        = normalizar_texto (some " Café de  Colón ".toList) SIN_DATO ∧
    texto_normalizado (texto_normalizado " Café de  Colón ".toList)
        = texto_normalizado " Café de  Colón ".toList :=
  ⟨C2_normalizadores_idempotentes.1 _,
   C2_normalizadores_idempotentes.2 _ (by decide)⟩

/-- C2 counterexample: `texto_normalizado` is not idempotent on `"nan!"`,
whose tokenized form is `"nan"` and re-tokenizes to the empty string. -/
theorem C2_contraejemplo :
    texto_normalizado (texto_normalizado "nan!".toList) ≠ texto_normalizado "nan!".toList := by
  decide

/-- C4: the spatial filter returns exactly the rows of the table whose
geodesic distance from the origin is within the radius, each with that
distance attached as the DIST_KM field (the second component), and no
excluded row satisfies the bound. -/
theorem C4_filtro_radial (dist : Coords → Coords → ℚ) (cafes : List Row)
    (coords : Coords) (radio_km : ℚ) (r : Row) (d : ℚ) :
    (r, d) ∈ cafes_en_radio dist cafes coords radio_km ↔
      r ∈ cafes ∧ d = dist coords (r.LAT, r.LONG) ∧ d ≤ radio_km :=
  mem_cafes_en_radio

/-- C5: a row survives the loader's cleaning step exactly when both
coordinate cells are present and parse (after comma-to-point replacement)
to values within [-90, 90] × [-180, 180], in which case the parsed values
are attached unchanged; and on a cache miss the loader returns precisely
the cleaned, city-stamped table and caches it. -/
theorem C5_limpieza_coordenadas :
    (∀ (rows : List RawRow) (r : Row),
      r ∈ limpiar_coordenadas rows ↔
        ∃ raw ∈ rows, ∃ sLat sLong lat long,
          raw.LAT = some sLat ∧ raw.LONG = some sLong ∧
          to_numeric (replaceComma sLat) = some lat ∧
          to_numeric (replaceComma sLong) = some long ∧
          -90 ≤ lat ∧ lat ≤ 90 ∧ -180 ≤ long ∧ long ≤ 180 ∧
          r = { CAFE := raw.CAFE, UBICACION := raw.UBICACION, TOSTADOR := raw.TOSTADOR,
                LAT := lat, LONG := long, CIUDAD := [] }) ∧
    (∀ (fetch : Fetch) (now : ℚ) (cache : DataCache) (ciudad : Str) (raw : List RawRow),
      ciudad ∈ CIUDADES → cache.cafes_por_ciudad ciudad = none → fetch ciudad = .ok raw →
      cargar_cafes fetch now cache ciudad =
        .ok ((limpiar_coordenadas raw).map (fun r => { r with CIUDAD := ciudad }),
             { cache with
               cafes_por_ciudad := fun c =>
                 if c = ciudad then
                   some ⟨now, (limpiar_coordenadas raw).map (fun r => { r with CIUDAD := ciudad })⟩
                 else cache.cafes_por_ciudad c })) := by
  constructor
  · intro rows r
    unfold limpiar_coordenadas
    rw [List.mem_filterMap]
    constructor
    · rintro ⟨raw, hraw, hf⟩
      exact ⟨raw, hraw, limpiarFila_eq_some.mp hf⟩
    · rintro ⟨raw, hraw, hchar⟩
      exact ⟨raw, hraw, limpiarFila_eq_some.mpr hchar⟩
  · intro fetch now cache ciudad raw hc hnone hf
    rw [cargar_cafes_no_entry hc hnone, cargarCafesFetch_ok hf]

/-- C5 witness: a concrete decimal-comma row survives cleaning with its
parsed coordinates, and a cache-miss load returns the city-stamped table. -/
theorem C5_testigo :
    filaEjemplo ∈ limpiar_coordenadas [rawEjemplo] ∧
    ∃ par, cargar_cafes (fun _ => Except.ok [rawEjemplo]) 0 cacheVacia "Mar del Plata".toList
        = .ok par ∧ par.1 = [{ filaEjemplo with CIUDAD := "Mar del Plata".toList }] := by
  constructor
  · exact (C5_limpieza_coordenadas.1 [rawEjemplo] filaEjemplo).mpr
      ⟨rawEjemplo, List.mem_singleton.mpr rfl, "-38,0055".toList, "-57,5426".toList,
       mkRat (-380055) 10000, mkRat (-575426) 10000, rfl, rfl, by decide, by decide,
       by decide, by decide, by decide, by decide, rfl⟩
  · exact ⟨_, C5_limpieza_coordenadas.2 (fun _ => Except.ok [rawEjemplo]) 0 cacheVacia
      "Mar del Plata".toList [rawEjemplo] (by decide) rfl rfl, by decide⟩

/-- C3 (amended): the local fallback forms its query tokens from the
normalized address keeping tokens of length ≥ 3 (all tokens when none
qualify), scores each row by the number of query-token occurrences — with
multiplicity, not the number of distinct matching tokens — that are
substrings of the row's normalized location-plus-name text, returns `none`
exactly when every row scores 0, and otherwise the coordinates of a
maximal-scoring row (tie-break arbitrary; the table must be non-empty). -/
theorem C3_geocodificacion_local (direccion : Str) (cafes : List Row) (hne : cafes ≠ []) :
    ∃ res, geocodificar_desde_cafes direccion cafes = .ok res ∧
      (texto_normalizado direccion = [] → res = none) ∧
      (texto_normalizado direccion ≠ [] →
        ((res = none) ↔ ∀ r ∈ cafes,
            puntaje (tokensConsulta (texto_normalizado direccion)) (rowTexto r) = 0) ∧
        (∀ c, res = some c → ∃ r ∈ cafes,
            c = (r.LAT, r.LONG) ∧ ∀ r' ∈ cafes,
              puntaje (tokensConsulta (texto_normalizado direccion)) (rowTexto r') ≤
                puntaje (tokensConsulta (texto_normalizado direccion)) (rowTexto r))) :=
  gdc_spec direccion cafes hne

/-- C3 witness: the spec's own scenario — address "Av. Colón 1500" against
a table whose single row's location text contains "colon" and "1500" —
succeeds and returns that row's coordinates. -/
theorem C3_testigo :
    (∃ res, geocodificar_desde_cafes "Av. Colón 1500".toList [filaEjemplo] = .ok res) ∧
    geocodificar_desde_cafes "Av. Colón 1500".toList [filaEjemplo]
        = .ok (some (filaEjemplo.LAT, filaEjemplo.LONG)) := by
  obtain ⟨res, heq, -, -⟩ :=
    C3_geocodificacion_local "Av. Colón 1500".toList [filaEjemplo] (by decide)
  exact ⟨⟨res, heq⟩, by decide⟩

/-- The address used by the C3 counterexample. -/
def direccionCtr : Str := "aaa aaa aaa bbb ccc".toList

/-- Row matching the thrice-repeated token once. -/
def filaCtrA : Row :=
  { CAFE := none, UBICACION := some "aaa".toList, TOSTADOR := none,
    LAT := 1, LONG := 1, CIUDAD := [] }

/-- Row matching two distinct tokens. -/
def filaCtrB : Row :=
  { CAFE := none, UBICACION := some "bbb ccc".toList, TOSTADOR := none,
    LAT := 2, LONG := 2, CIUDAD := [] }

/-- The claim's reading of the score: the number of DISTINCT query tokens
occurring as substrings of the row text. -/
def puntajeDistinto (tokens : List Str) (texto : Str) : ℕ :=
  (tokens.dedup.filter fun t => esSubcadena t texto).length

/-- C3 counterexample: for the address "aaa aaa aaa bbb ccc", the code
returns the coordinates of row A — which matches one distinct token three
times — although row B is the unique row maximizing the count of distinct
matching tokens and has different coordinates, so the score is not "the
count of distinct query tokens". -/
theorem C3_contraejemplo :
    geocodificar_desde_cafes direccionCtr [filaCtrA, filaCtrB] = .ok (some (1, 1)) ∧
    puntajeDistinto (tokensConsulta (texto_normalizado direccionCtr)) (rowTexto filaCtrA) <
      puntajeDistinto (tokensConsulta (texto_normalizado direccionCtr)) (rowTexto filaCtrB) ∧
    (filaCtrA.LAT, filaCtrA.LONG) = ((1 : ℚ), (1 : ℚ)) ∧
    (filaCtrB.LAT, filaCtrB.LONG) = ((2 : ℚ), (2 : ℚ)) ∧
    ((1 : ℚ), (1 : ℚ)) ≠ ((2 : ℚ), (2 : ℚ)) := by
  decide

/-- C9: on a non-empty table the local fallback always returns (either no
match or the coordinates of some row of the table); on an empty table with
an address whose normalized form is non-empty it raises (`iloc[0]` on an
empty frame), and that error propagates out of `resolver_coordenadas`
whenever the remote tier came up empty. -/
theorem C9_fallback_parcial :
    (∀ (direccion : Str) (cafes : List Row), cafes ≠ [] →
      ∃ res, geocodificar_desde_cafes direccion cafes = .ok res ∧
        (res = none ∨ ∃ r ∈ cafes, res = some (r.LAT, r.LONG))) ∧
    (∀ direccion : Str, texto_normalizado direccion ≠ [] →
      geocodificar_desde_cafes direccion [] = .error ()) ∧
    (∀ (direccion : Str) (provider : ProviderOutcome),
      geocodificar direccion provider = none → texto_normalizado direccion ≠ [] →
      resolver_coordenadas direccion provider [] = .error ()) := by
  have herr : ∀ direccion : Str, texto_normalizado direccion ≠ [] →
      geocodificar_desde_cafes direccion [] = .error () := by
    intro direccion hdn
    unfold geocodificar_desde_cafes
    rw [if_neg hdn]
    rfl
  refine ⟨?_, herr, ?_⟩
  · intro direccion cafes hne
    obtain ⟨res, heq, hnil, hchar⟩ := gdc_spec direccion cafes hne
    refine ⟨res, heq, ?_⟩
    by_cases hdn : texto_normalizado direccion = []
    · exact Or.inl (hnil hdn)
    · cases hres : res with
      | none => exact Or.inl rfl
      | some c =>
        obtain ⟨r, hr, hcoords, -⟩ := (hchar hdn).2 c hres
        exact Or.inr ⟨r, hr, by rw [hcoords]⟩
  · intro direccion provider hgeo hdn
    simp only [resolver_coordenadas, hgeo]
    simp only [herr direccion hdn]

/-- C9 witness: the three behaviors at concrete inputs — success on a
one-row table, the empty-table error, and its propagation through the
resolver when the remote tier errored out. -/
theorem C9_testigo :
    (∃ res, geocodificar_desde_cafes "colon".toList [filaEjemplo] = .ok res) ∧
    geocodificar_desde_cafes "colon".toList ([] : List Row) = .error () ∧
    resolver_coordenadas "colon".toList (.error ()) [] = .error () := by
  refine ⟨?_, C9_fallback_parcial.2.1 "colon".toList (by decide),
          C9_fallback_parcial.2.2 "colon".toList (.error ()) (by decide) (by decide)⟩
  obtain ⟨res, heq, -⟩ := C9_fallback_parcial.1 "colon".toList [filaEjemplo] (by decide)
  exact ⟨res, heq⟩

/-- C6: the resolver short-circuits empty and whitespace-only addresses to
`(none, none)`; the remote tier converts every provider exception and
not-found outcome to `none` (it never raises), after which the local
fallback is consulted; remote successes are tagged "online" and
local-fallback successes "local". -/
theorem C6_resolver_errores :
    (∀ (direccion : Str) (provider : ProviderOutcome) (cafes : List Row),
      pyStrip direccion = [] →
      resolver_coordenadas direccion provider cafes = .ok (none, none)) ∧
    (∀ (direccion : Str) (e : Unit), geocodificar direccion (.error e) = none) ∧
    (∀ direccion : Str, geocodificar direccion (.ok none) = none) ∧
    (∀ (direccion : Str) (provider : ProviderOutcome) (cafes : List Row) (c : Coords),
      geocodificar direccion provider = some c →
      resolver_coordenadas direccion provider cafes = .ok (some c, some FUENTE_ONLINE)) ∧
    (∀ (direccion : Str) (provider : ProviderOutcome) (cafes : List Row) (c : Coords),
      geocodificar direccion provider = none →
      geocodificar_desde_cafes direccion cafes = .ok (some c) →
      resolver_coordenadas direccion provider cafes = .ok (some c, some FUENTE_LOCAL)) := by
  refine ⟨?_, ?_, ?_, ?_, ?_⟩
  · intro d p cafes h
    have h1 : geocodificar d p = none := geocodificar_of_strip_empty p h
    have h2 : texto_normalizado d = [] := texto_normalizado_of_strip_empty h
    have h3 : geocodificar_desde_cafes d cafes = .ok none := by
      unfold geocodificar_desde_cafes
      rw [if_pos h2]
    simp only [resolver_coordenadas, h1, h3]
  · intro d e
    unfold geocodificar
    by_cases h : pyStrip d = []
    · rw [if_pos h]
    · rw [if_neg h]
  · intro d
    unfold geocodificar
    by_cases h : pyStrip d = []
    · rw [if_pos h]
    · rw [if_neg h]
  · intro d p cafes c h
    simp only [resolver_coordenadas, h]
  · intro d p cafes c h1 h2
    simp only [resolver_coordenadas, h1, h2]

/-- C6 witness: the five behaviors at concrete inputs. -/
theorem C6_testigo :
    resolver_coordenadas "  ".toList (.ok (some (5, 5))) [] = .ok (none, none) ∧
    geocodificar "x".toList (.error ()) = none ∧
    geocodificar "x".toList (.ok none) = none ∧
    resolver_coordenadas "x".toList (.ok (some (3, 4))) []
        = .ok (some (3, 4), some FUENTE_ONLINE) ∧
    resolver_coordenadas "colon".toList (.ok none) [filaEjemplo]
        = .ok (some (filaEjemplo.LAT, filaEjemplo.LONG), some FUENTE_LOCAL) :=
  ⟨C6_resolver_errores.1 _ _ _ (by decide), C6_resolver_errores.2.1 _ (),
   C6_resolver_errores.2.2.1 _,
   C6_resolver_errores.2.2.2.1 _ _ _ _ (by decide),
   C6_resolver_errores.2.2.2.2 _ _ _ _ (by decide) (by decide)⟩

/-- C7: the recommend endpoint uses the fixed radius 0.75 km; when
resolution succeeds but no café lies within 0.75 km it fails with
`NoCandidates` (never an empty success); when resolution yields nothing it
fails with `GeocodeFailed`; and every successful answer is one of the rows
within 0.75 km. -/
theorem C7_recomendar_radio_fijo (ciudad direccion : Str) (provider : ProviderOutcome)
    (dist : Coords → Coords → ℚ) (cafes : List Row) (k : ℕ)
    (hc : ciudad ∈ CIUDADES) :
    (∀ coords fuente,
      resolver_coordenadas direccion provider cafes = .ok (some coords, fuente) →
      (cafes_en_radio dist cafes coords (mkRat 3 4) = [] →
        recomendar_cafe ciudad direccion provider dist cafes k = .error .noCandidates) ∧
      (∀ rd, recomendar_cafe ciudad direccion provider dist cafes k = .ok rd →
        rd ∈ cafes_en_radio dist cafes coords (mkRat 3 4) ∧ rd.2 ≤ mkRat 3 4)) ∧
    (∀ fuente, resolver_coordenadas direccion provider cafes = .ok (none, fuente) →
      recomendar_cafe ciudad direccion provider dist cafes k = .error .geocodeFailed) := by
  constructor
  · intro coords fuente hres
    constructor
    · intro hempty
      unfold recomendar_cafe
      rw [if_pos hc]
      simp only [hres, hempty]
    · intro rd hok
      unfold recomendar_cafe at hok
      rw [if_pos hc] at hok
      simp only [hres] at hok
      cases hrad : cafes_en_radio dist cafes coords (mkRat 3 4) with
      | nil =>
        simp only [hrad] at hok
        cases hok
      | cons r rs =>
        simp only [hrad] at hok
        have hget := Except.ok.inj hok
        have hmem : rd ∈ r :: rs := by
          rw [← hget]
          exact List.get_mem _ _ _
        have hmem' : rd ∈ cafes_en_radio dist cafes coords (mkRat 3 4) := by
          rw [hrad]
          exact hmem
        refine ⟨hmem, ?_⟩
        obtain ⟨row, dv⟩ := rd
        exact (mem_cafes_en_radio.mp hmem').2.2
  · intro fuente hres
    unfold recomendar_cafe
    rw [if_pos hc]
    simp only [hres]

/-- C7 witness: the two failure modes and a success drawn from the
qualifying set, at concrete inputs. -/
theorem C7_testigo :
    recomendar_cafe "Rosario".toList "".toList (.error ()) (fun _ _ => 0) [] 0
        = .error .geocodeFailed ∧
    recomendar_cafe "Rosario".toList "x".toList (.ok (some (0, 0))) (fun _ _ => 0) [] 0
        = .error .noCandidates ∧
    ((filaEjemplo, (0 : ℚ)) ∈ cafes_en_radio (fun _ _ => 0) [filaEjemplo] (0, 0) (mkRat 3 4) ∧
      (0 : ℚ) ≤ mkRat 3 4) := by
  refine ⟨(C7_recomendar_radio_fijo "Rosario".toList "".toList (.error ())
            (fun _ _ => 0) [] 0 (by decide)).2 none (by decide),
          ((C7_recomendar_radio_fijo "Rosario".toList "x".toList (.ok (some (0, 0)))
            (fun _ _ => 0) [] 0 (by decide)).1 (0, 0) (some FUENTE_ONLINE) (by decide)).1 rfl,
          ((C7_recomendar_radio_fijo "Rosario".toList "x".toList (.ok (some (0, 0)))
            (fun _ _ => 0) [filaEjemplo] 0 (by decide)).1 (0, 0) (some FUENTE_ONLINE)
            (by decide)).2 (filaEjemplo, 0) (by decide)⟩

/-- C8: the all-cities loader serves a fresh combined cache entry
unchanged; otherwise each configured city is loaded independently from the
pre-call cache, failing cities are silently omitted, the successes are
concatenated in city order (empty when every city fails), and the result is
cached under the current timestamp — no city failure makes the combined
load fail. -/
theorem C8_cargar_todos_absorbe_fallos :
    (∀ (fetch : Fetch) (now : ℚ) (cache : DataCache) (item : CacheItem),
      cache.todos_los_cafes = some item → now - item.ts < CACHE_TTL →
      cargar_todos_los_cafes fetch now cache = (item.df, cache)) ∧
    (∀ (fetch : Fetch) (now : ℚ) (cache : DataCache),
      is_fresh now cache.todos_los_cafes = false →
      (cargar_todos_los_cafes fetch now cache).1
          = (CIUDADES.filterMap (fun c => exceptDf (cargar_cafes fetch now cache c))).flatten ∧
      (cargar_todos_los_cafes fetch now cache).2.todos_los_cafes
          = some ⟨now, (cargar_todos_los_cafes fetch now cache).1⟩) ∧
    (∀ (fetch : Fetch) (now : ℚ) (cache : DataCache),
      is_fresh now cache.todos_los_cafes = false →
      (∀ c ∈ CIUDADES, exceptDf (cargar_cafes fetch now cache c) = none) →
      (cargar_todos_los_cafes fetch now cache).1 = []) := by
  have key : ∀ (fetch : Fetch) (now : ℚ) (cache : DataCache),
      is_fresh now cache.todos_los_cafes = false →
      (cargar_todos_los_cafes fetch now cache).1
          = (CIUDADES.filterMap (fun c => exceptDf (cargar_cafes fetch now cache c))).flatten ∧
      (cargar_todos_los_cafes fetch now cache).2.todos_los_cafes
          = some ⟨now, (cargar_todos_los_cafes fetch now cache).1⟩ := by
    intro fetch now cache hstale
    have hfetchpath : cargar_todos_los_cafes fetch now cache = cargarTodosFetch fetch now cache := by
      unfold cargar_todos_los_cafes
      cases hsome : cache.todos_los_cafes with
      | none => rfl
      | some item =>
        have hnf : ¬(now - item.ts < CACHE_TTL) := by
          rw [hsome] at hstale
          simpa [is_fresh] using hstale
        simp [hnf]
    rw [hfetchpath]
    obtain ⟨h1, -⟩ :=
      fold_cargar_todos fetch now cache CIUDADES cache [] (by decide) (fun _ _ => rfl)
    constructor
    · show (CIUDADES.foldl (pasoCargarTodos fetch now) ([], cache)).1.flatten = _
      rw [h1, List.nil_append]
    · rfl
  refine ⟨?_, key, ?_⟩
  · intro fetch now cache item hsome hfresh
    unfold cargar_todos_los_cafes
    rw [hsome]
    simp [hfresh]
  · intro fetch now cache hstale hall
    rw [(key fetch now cache hstale).1, List.filterMap_eq_nil_iff.mpr hall]
    rfl

/-- A cache whose combined entry was created at time 0 and holds one row. -/
def cacheFresca : DataCache := ⟨fun _ => none, some ⟨0, [filaEjemplo]⟩⟩

/-- C8 witness: a fresh combined entry is served unchanged, and with a
cold cache and a fetch that always fails the combined load still succeeds,
with the empty table. -/
theorem C8_testigo :
    cargar_todos_los_cafes (fun _ => Except.error ()) 0 cacheFresca = ([filaEjemplo], cacheFresca) ∧
    (cargar_todos_los_cafes (fun _ => Except.error ()) 0 cacheVacia).1 = [] :=
  ⟨C8_cargar_todos_absorbe_fallos.1 _ 0 cacheFresca ⟨0, [filaEjemplo]⟩ rfl (by simp [CACHE_TTL]),
   C8_cargar_todos_absorbe_fallos.2.2 _ 0 cacheVacia rfl (by decide)⟩

/-- C10 (amended): for every non-empty roaster-filter value other than
"Todos", the search compares it for raw exact equality against each row's
TOSTADOR cell after the distance sort, so rows with a missing roaster never
survive, and the surviving rows remain sorted ascending by DIST_KM.  (A
filter that is the empty string is falsy in Python and, like "Todos" or an
absent filter, disables filtering entirely.) -/
theorem C10_filtro_tostador (ciudad direccion : Str) (radio_km : ℚ) (t : Str)
    (provider : ProviderOutcome) (dist : Coords → Coords → ℚ) (cafes : List Row)
    (out : List (Row × ℚ))
    (ht1 : t ≠ []) (ht2 : t ≠ TODOS)
    (hok : buscar_cafes ciudad direccion radio_km (some t) provider dist cafes = .ok out) :
    (∃ coords fuente, resolver_coordenadas direccion provider cafes = .ok (some coords, fuente) ∧
      out = (ordenarPorDistancia (cafes_en_radio dist cafes coords radio_km)).filter
              (fun rd => rd.1.TOSTADOR = some t)) ∧
    (∀ rd ∈ out, rd.1.TOSTADOR = some t) ∧
    (∀ rd ∈ out, rd.1.TOSTADOR ≠ none) ∧
    out.Pairwise (fun a b : Row × ℚ => a.2 ≤ b.2) := by
  unfold buscar_cafes at hok
  by_cases hc : ciudad ∈ CIUDADES
  · rw [if_pos hc] at hok
    cases hres : resolver_coordenadas direccion provider cafes with
    | error e =>
      rw [hres] at hok
      cases hok
    | ok pair =>
      obtain ⟨copt, fuente⟩ := pair
      cases copt with
      | none =>
        rw [hres] at hok
        cases hok
      | some coords =>
        rw [hres] at hok
        simp only at hok
        rw [if_pos ⟨ht1, ht2⟩] at hok
        obtain rfl := Except.ok.inj hok
        refine ⟨⟨coords, fuente, rfl, rfl⟩, ?_, ?_, ?_⟩
        · intro rd hrd
          exact of_decide_eq_true (List.mem_filter.mp hrd).2
        · intro rd hrd h
          have h2 := of_decide_eq_true (List.mem_filter.mp hrd).2
          rw [h] at h2
          cases h2
        · exact List.Pairwise.sublist (List.filter_sublist _) (sorted_ordenarPorDistancia _)
  · rw [if_neg hc] at hok
    cases hok

/-- A row whose roaster cell is present. -/
def filaConTostador : Row :=
  { CAFE := none, UBICACION := none, TOSTADOR := some "T".toList,
    LAT := 0, LONG := 0, CIUDAD := [] }

/-- A row whose roaster cell is missing (NaN in the source table). -/
def filaSinTostador : Row :=
  { CAFE := none, UBICACION := none, TOSTADOR := none,
    LAT := 0, LONG := 0, CIUDAD := [] }

/-- C10 witness: with the concrete filter "T", the returned rows all carry
roaster "T" and are sorted by distance. -/
theorem C10_testigo :
    (∀ rd ∈ [(filaConTostador, (0 : ℚ))], (rd : Row × ℚ).1.TOSTADOR = some "T".toList) ∧
    ([(filaConTostador, (0 : ℚ))] : List (Row × ℚ)).Pairwise
      (fun a b : Row × ℚ => a.2 ≤ b.2) := by
  have h := C10_filtro_tostador "La Plata".toList "x".toList 2 "T".toList
    (.ok (some (0, 0))) (fun _ _ => 0) [filaConTostador] [(filaConTostador, 0)]
    (by decide) (by decide) (by decide)
  exact ⟨h.2.1, h.2.2.2⟩

/-- C10 counterexample: the empty-string filter differs from "Todos" yet
disables filtering, so a row with a missing roaster is returned. -/
theorem C10_contraejemplo :
    buscar_cafes "La Plata".toList "x".toList 2 (some []) (.ok (some (0, 0))) (fun _ _ => 0)
        [filaSinTostador] = .ok [(filaSinTostador, 0)] ∧
    filaSinTostador.TOSTADOR = none ∧
    ([] : Str) ≠ TODOS := by
  decide
